import Mathlib

/-!
# Verification of the broker queue metrics tracker (`src/broker/metrics.go`)

Shallow embedding of the metrics-correlation engine: per-kind counters, a
latency histogram, and a correlation table mapping each in-flight work item
to the timestamp at which it was first observed entering the queue.

Wall-clock time is passed explicitly (in seconds, as a rational number);
`time.Since(t).Seconds()` at current time `now` becomes `now - t`.
The histogram is modelled as the list of observed values.  The Go map
`sentTimes : map[interface{}]time.Time` is modelled as an association list
keyed by the whole event value, exactly as the Go code keys it by `evt`.
A possibly-absent (`nil`) tracker is `Option Metrics`.
-/

namespace Broker

/-- Modelled from the spec: the repository's `internal/events` package (not
under `src/`) provides the event kind enumeration.  The spec names the known
kinds Add, Update, Delete (Go: `events.Added`, `events.Modified`,
`events.Deleted`) and states that kinds outside this set exist and are
silently ignored by the counter switch; `other` stands for any such kind. -/
inductive EventType where
  | Added
  | Modified
  | Deleted
  | other (tag : Nat)
deriving DecidableEq, Repr

/-- A work item / event: an opaque comparable identity carrying an operation
kind.  The Go code uses the whole `events.Event` value as the map key. -/
structure Event where
  id : Nat
  type : EventType
deriving DecidableEq, Repr

/-- The correlation table: work-item identity ↦ enqueue timestamp (seconds). -/
abbrev SentTimes := List (Event × ℚ)

/-- Lookup in the correlation table (Go: `m.sentTimes[evt]`, the comma-ok
form returning whether the key is present). -/
def lookupTime : SentTimes → Event → Option ℚ
  | [], _ => none
  | (k, v) :: rest, e => if k = e then some v else lookupTime rest e

/-- Deletion from the correlation table (Go: `delete(m.sentTimes, evt)`). -/
def deleteTime (tbl : SentTimes) (e : Event) : SentTimes :=
  tbl.filter (fun p => p.1 ≠ e)

/-- The `metrics` struct of `src/broker/metrics.go` (lines 62–69): three
per-kind counters, the latency observer (modelled as the list of observed
values), and the correlation table `sentTimes`.  The `sync.Mutex` field has
no sequential content; each operation is one atomic step on this state. -/
structure Metrics where
  addCounter : ℚ
  updateCounter : ℚ
  deleteCounter : ℚ
  observations : List ℚ
  sentTimes : SentTimes
deriving DecidableEq, Repr

/-- `newMetrics` (lines 72–90): counters forced to zero, empty correlation
table, no observations.  It is a total function: construction never fails. -/
def newMetrics (_name : String) : Metrics :=
  { addCounter := 0
    updateCounter := 0
    deleteCounter := 0
    observations := []
    sentTimes := [] }

/-- The counter switch inside `send` (lines 100–107): increment exactly the
counter matching the event kind; any other kind falls through unchanged. -/
def incCounter (m : Metrics) (t : EventType) : Metrics :=
  match t with
  | .Added => { m with addCounter := m.addCounter + 1 }
  | .Modified => { m with updateCounter := m.updateCounter + 1 }
  | .Deleted => { m with deleteCounter := m.deleteCounter + 1 }
  | .other _ => m

/-- `send` (lines 93–112), with the current wall-clock time `now` passed
explicitly.  Nil receiver returns immediately; otherwise the matching
counter is incremented and, when the event is not already in the
correlation table, the current timestamp is recorded against it. -/
def send (m : Option Metrics) (evt : Event) (now : ℚ) : Option Metrics :=
  match m with
  | none => none
  | some m =>
    let m := incCounter m evt.type
    if (lookupTime m.sentTimes evt).isSome then some m
    else some { m with sentTimes := (evt, now) :: m.sentTimes }

/-- `receive` (lines 115–126), with the current wall-clock time `now` passed
explicitly.  Nil receiver returns immediately; when the event is in the
correlation table the elapsed time since its recorded timestamp is observed
on the histogram and the entry is deleted; otherwise nothing happens. -/
def receive (m : Option Metrics) (evt : Event) (now : ℚ) : Option Metrics :=
  match m with
  | none => none
  | some m =>
    match lookupTime m.sentTimes evt with
    | some startTime =>
        some { m with
                observations := (now - startTime) :: m.observations
                sentTimes := deleteTime m.sentTimes evt }
    | none => some m

/-! ## Metric schema (lines 27–52)

The exported names and the histogram bucket layout.  Prometheus builds a
metric's full name by joining the non-empty parts of
(namespace, subsystem, name) with underscores; here the namespace is empty.
-/

def brokerQueueSubsystem : String := "broker"

def queueLatencyKey : String := "queue_duration_seconds"

def addsKey : String := "queue_adds"

def addLabel : String := "Add"

def updateLabel : String := "Update"

def deleteLabel : String := "Delete"

/-- `prometheus.BuildFQName`: joins the non-empty components of
namespace, subsystem and name with `_`. -/
def buildFQName (ns subsystem name : String) : String :=
  let parts := [ns, subsystem, name].filter (fun s => s ≠ "")
  String.intercalate "_" parts

/-- Full name of the counter family declared at lines 47–51. -/
def addsFullName : String := buildFQName "" brokerQueueSubsystem addsKey

/-- Full name of the histogram family declared at lines 40–45. -/
def latencyFullName : String := buildFQName "" brokerQueueSubsystem queueLatencyKey

/-- Label names of the counter vector (line 51). -/
def addsLabelNames : List String := ["name", "type"]

/-- Label names of the histogram vector (line 45). -/
def latencyLabelNames : List String := ["name"]

/-- `prometheus.ExponentialBuckets(start, factor, count)`:
`count` buckets, the i-th being `start * factor ^ i`. -/
def exponentialBuckets (start factor : ℚ) (count : Nat) : List ℚ :=
  (List.range count).map (fun i => start * factor ^ i)

/-- The histogram buckets declared at line 44:
`prometheus.ExponentialBuckets(10e-9, 10, 10)`. -/
def latencyBuckets : List ℚ := exponentialBuckets (10 * (1 / 1000000000)) 10 10

/-! ## Registry view for construction (lines 74–79)

`newMetrics` resolves the three labelled counter children and forces each to
an explicit zero via `Add(0)`, so that each child exists (reads zero rather
than being absent) before any traffic.  The counter vector is modelled as an
association list from the (name, type) label pair to the counter value;
`WithLabelValues` followed by `Add(v)` creates the child at 0 when absent,
then adds `v`. -/

abbrev CounterVec := List ((String × String) × ℚ)

def lookupCounter : CounterVec → String × String → Option ℚ
  | [], _ => none
  | (k, v) :: rest, key => if k = key then some v else lookupCounter rest key

/-- `adds.WithLabelValues(name, label).Add(v)` acting on the vector state. -/
def counterVecAdd (reg : CounterVec) (key : String × String) (v : ℚ) : CounterVec :=
  match lookupCounter reg key with
  | some w => (key, w + v) :: reg.filter (fun p => p.1 ≠ key)
  | none => (key, v) :: reg

/-- The effect of `newMetrics name` (lines 74–79) on the shared counter
vector: each of the three per-kind children is forced to an explicit zero. -/
def registryAfterNewMetrics (name : String) (reg : CounterVec) : CounterVec :=
  let reg := counterVecAdd reg (name, addLabel) 0
  let reg := counterVecAdd reg (name, updateLabel) 0
  counterVecAdd reg (name, deleteLabel) 0

/-! ## Helper lemmas -/

/-- The counter switch never touches the correlation table. -/
theorem incCounter_sentTimes (m : Metrics) (t : EventType) :
    (incCounter m t).sentTimes = m.sentTimes := by
  cases t <;> rfl

/-- The counter switch never touches the histogram. -/
theorem incCounter_observations (m : Metrics) (t : EventType) :
    (incCounter m t).observations = m.observations := by
  cases t <;> rfl

/-- A lookup misses exactly when the identity is not among the table keys. -/
theorem lookupTime_eq_none (tbl : SentTimes) (e : Event) :
    lookupTime tbl e = none ↔ e ∉ tbl.map Prod.fst := by
  induction tbl with
  | nil => simp [lookupTime]
  | cons p rest ih =>
    obtain ⟨k, v⟩ := p
    by_cases hk : k = e
    · subst hk
      simp [lookupTime]
    · simp [lookupTime, hk, ih, Ne.symm hk]

/-- Looking up the key at the head of the table. -/
theorem lookupTime_cons_self (tbl : SentTimes) (e : Event) (v : ℚ) :
    lookupTime ((e, v) :: tbl) e = some v := by
  simp [lookupTime]

/-- Deleting an absent key leaves the table unchanged. -/
theorem deleteTime_of_lookup_none (tbl : SentTimes) (e : Event)
    (h : lookupTime tbl e = none) : deleteTime tbl e = tbl := by
  rw [lookupTime_eq_none] at h
  rw [deleteTime, List.filter_eq_self]
  intro p hp
  simp only [decide_eq_true_eq]
  intro hpe
  exact h (List.mem_map.mpr ⟨p, hp, hpe⟩)

/-- Deleting the key at the head of the table drops the head. -/
theorem deleteTime_cons_self (tbl : SentTimes) (e : Event) (v : ℚ) :
    deleteTime ((e, v) :: tbl) e = deleteTime tbl e := by
  simp [deleteTime]

/-- After deletion, the key is gone from the table. -/
theorem lookupTime_deleteTime_self (tbl : SentTimes) (e : Event) :
    lookupTime (deleteTime tbl e) e = none := by
  rw [lookupTime_eq_none]
  intro hmem
  rcases List.mem_map.mp hmem with ⟨p, hp, hpe⟩
  rcases List.mem_filter.mp hp with ⟨-, hpred⟩
  simp only [decide_eq_true_eq] at hpred
  exact hpred hpe

/-- The shape of a successful `send` when the identity is not yet tracked. -/
theorem send_of_lookup_none (m : Metrics) (evt : Event) (t1 : ℚ)
    (h : lookupTime m.sentTimes evt = none) :
    send (some m) evt t1 =
      some { incCounter m evt.type with sentTimes := (evt, t1) :: m.sentTimes } := by
  simp only [send, incCounter_sentTimes, h, Option.isSome_none, Bool.false_eq_true,
    if_false]

/-- The shape of a successful `receive` when the identity is tracked. -/
theorem receive_of_lookup_some (m : Metrics) (evt : Event) (t0 t2 : ℚ)
    (h : lookupTime m.sentTimes evt = some t0) :
    receive (some m) evt t2 =
      some { m with observations := (t2 - t0) :: m.observations
                    sentTimes := deleteTime m.sentTimes evt } := by
  simp [receive, h]

/-- A `send` that finds the identity already tracked only touches the counters. -/
theorem send_of_lookup_some (m : Metrics) (evt : Event) (t0 t1 : ℚ)
    (h : lookupTime m.sentTimes evt = some t0) :
    send (some m) evt t1 = some (incCounter m evt.type) := by
  simp [send, incCounter_sentTimes, h]

/-! ## Claims -/

/-- C1: for a work item not yet tracked, calling `send` once and then
`receive` once for the same identity produces exactly one histogram
observation, whose value is the elapsed time (in fractional seconds) between
the recorded send timestamp and the receive call, and removes the item's
entry from the correlation table. -/
theorem C1_send_receive_once (m : Metrics) (evt : Event) (t1 t2 : ℚ)
    (h : lookupTime m.sentTimes evt = none) :
    ∃ m', receive (send (some m) evt t1) evt t2 = some m' ∧
      m'.observations = (t2 - t1) :: m.observations ∧
      m'.sentTimes = m.sentTimes ∧
      lookupTime m'.sentTimes evt = none := by
  rw [send_of_lookup_none m evt t1 h,
    receive_of_lookup_some _ evt t1 t2 (lookupTime_cons_self m.sentTimes evt t1)]
  refine ⟨_, rfl, ?_, ?_, ?_⟩
  · simp [incCounter_observations]
  · simp [deleteTime_cons_self, deleteTime_of_lookup_none _ _ h]
  · simp [deleteTime_cons_self, deleteTime_of_lookup_none _ _ h, h]

/-- Witness for C1 at a concrete input: fresh tracker, event of kind Add,
sent at time 0 and received at time 1. -/
theorem C1_witness :
    lookupTime (newMetrics "q").sentTimes ⟨0, .Added⟩ = none ∧
    ∃ m', receive (send (some (newMetrics "q")) ⟨0, .Added⟩ 0) ⟨0, .Added⟩ 1 = some m' ∧
      m'.observations = (1 - 0) :: (newMetrics "q").observations ∧
      m'.sentTimes = (newMetrics "q").sentTimes ∧
      lookupTime m'.sentTimes ⟨0, .Added⟩ = none :=
  ⟨rfl, C1_send_receive_once (newMetrics "q") ⟨0, .Added⟩ 0 1 rfl⟩

/-- C2: a second `send` for an identity already present in the correlation
table leaves the recorded timestamp (indeed, the whole table) unchanged, so
the latency observed on the eventual `receive` is measured from the first
`send`'s timestamp, not the second's. -/
theorem C2_second_send_preserves_timestamp (m : Metrics) (evt : Event) (t0 t1 t2 : ℚ)
    (h : lookupTime m.sentTimes evt = some t0) :
    ∃ m', send (some m) evt t1 = some m' ∧
      m'.sentTimes = m.sentTimes ∧
      lookupTime m'.sentTimes evt = some t0 ∧
      ∃ m'', receive (some m') evt t2 = some m'' ∧
        m''.observations = (t2 - t0) :: m'.observations := by
  have h2 : lookupTime (incCounter m evt.type).sentTimes evt = some t0 := by
    rw [incCounter_sentTimes]; exact h
  exact ⟨incCounter m evt.type, send_of_lookup_some m evt t0 t1 h,
    incCounter_sentTimes m evt.type, h2,
    _, receive_of_lookup_some _ evt t0 t2 h2, rfl⟩

/-- Witness for C2 at a concrete input: the event was first sent at time 2,
is sent again at time 5, and is received at time 9; the observed latency is
9 - 2, not 9 - 5. -/
theorem C2_witness :
    lookupTime [(⟨0, .Added⟩, (2 : ℚ))] ⟨0, .Added⟩ = some 2 ∧
    ∃ m', send (some { newMetrics "q" with sentTimes := [(⟨0, .Added⟩, (2 : ℚ))] })
        ⟨0, .Added⟩ 5 = some m' ∧
      m'.sentTimes = [(⟨0, .Added⟩, (2 : ℚ))] ∧
      lookupTime m'.sentTimes ⟨0, .Added⟩ = some 2 ∧
      ∃ m'', receive (some m') ⟨0, .Added⟩ 9 = some m'' ∧
        m''.observations = (9 - 2) :: m'.observations :=
  ⟨by decide,
    C2_second_send_preserves_timestamp
      { newMetrics "q" with sentTimes := [(⟨0, .Added⟩, (2 : ℚ))] }
      ⟨0, .Added⟩ 2 5 9 (by decide)⟩

/-- C3: the correlation table holds at most one timestamp per identity (its
keys stay duplicate-free under both operations), and each item follows the
two-state pending→settled lifecycle: a `receive` that finds the entry
removes it, so a second `receive` for the same identity is a no-op and
exactly one histogram observation results. -/
theorem C3_two_state_lifecycle (m : Metrics) (evt : Event) (t0 t1 t2 : ℚ)
    (hnd : (m.sentTimes.map Prod.fst).Nodup)
    (h : lookupTime m.sentTimes evt = some t0) :
    (∀ (e : Event) (now : ℚ) (m₁ : Metrics), send (some m) e now = some m₁ →
      (m₁.sentTimes.map Prod.fst).Nodup) ∧
    (∀ (e : Event) (now : ℚ) (m₁ : Metrics), receive (some m) e now = some m₁ →
      (m₁.sentTimes.map Prod.fst).Nodup) ∧
    ∃ m', receive (some m) evt t1 = some m' ∧
      lookupTime m'.sentTimes evt = none ∧
      receive (some m') evt t2 = some m' ∧
      m'.observations.length = m.observations.length + 1 := by
  refine ⟨?_, ?_, ?_⟩
  · intro e now m₁ hs
    cases hc : lookupTime m.sentTimes e with
    | some v =>
      rw [send_of_lookup_some m e v now hc] at hs
      cases hs
      rw [incCounter_sentTimes]
      exact hnd
    | none =>
      rw [send_of_lookup_none m e now hc] at hs
      cases hs
      simp only [incCounter_sentTimes, List.map_cons, List.nodup_cons]
      exact ⟨(lookupTime_eq_none m.sentTimes e).mp hc, hnd⟩
  · intro e now m₁ hr
    cases hc : lookupTime m.sentTimes e with
    | some v =>
      rw [receive_of_lookup_some m e v now hc] at hr
      cases hr
      exact hnd.sublist ((List.filter_sublist m.sentTimes).map Prod.fst)
    | none =>
      simp only [receive, hc] at hr
      cases hr
      exact hnd
  · rw [receive_of_lookup_some m evt t0 t1 h]
    have hgone : lookupTime (deleteTime m.sentTimes evt) evt = none :=
      lookupTime_deleteTime_self m.sentTimes evt
    refine ⟨_, rfl, hgone, ?_, by simp⟩
    simp [receive, hgone]

/-- Witness for C3 at a concrete input: a table holding exactly one entry
for the event, received twice at times 7 and 9. -/
theorem C3_witness :
    ((([(⟨0, .Added⟩, (5 : ℚ))] : SentTimes).map Prod.fst).Nodup ∧
      lookupTime [(⟨0, .Added⟩, (5 : ℚ))] ⟨0, .Added⟩ = some 5) ∧
    ((∀ (e : Event) (now : ℚ) (m₁ : Metrics),
        send (some { newMetrics "q" with sentTimes := [(⟨0, .Added⟩, (5 : ℚ))] }) e now =
          some m₁ → (m₁.sentTimes.map Prod.fst).Nodup) ∧
      (∀ (e : Event) (now : ℚ) (m₁ : Metrics),
        receive (some { newMetrics "q" with sentTimes := [(⟨0, .Added⟩, (5 : ℚ))] }) e now =
          some m₁ → (m₁.sentTimes.map Prod.fst).Nodup) ∧
      ∃ m', receive (some { newMetrics "q" with sentTimes := [(⟨0, .Added⟩, (5 : ℚ))] })
          ⟨0, .Added⟩ 7 = some m' ∧
        lookupTime m'.sentTimes ⟨0, .Added⟩ = none ∧
        receive (some m') ⟨0, .Added⟩ 9 = some m' ∧
        m'.observations.length =
          ({ newMetrics "q" with
              sentTimes := [(⟨0, .Added⟩, (5 : ℚ))] } : Metrics).observations.length + 1) :=
  ⟨⟨by decide, by decide⟩,
    C3_two_state_lifecycle { newMetrics "q" with sentTimes := [(⟨0, .Added⟩, (5 : ℚ))] }
      ⟨0, .Added⟩ 5 7 9 (by decide) (by decide)⟩

/-- C4: `receive` for an identity absent from the correlation table reports
no observation, raises no error, and leaves the whole tracker state
(counters, histogram, table) unchanged. -/
theorem C4_receive_absent_noop (m : Metrics) (evt : Event) (now : ℚ)
    (h : lookupTime m.sentTimes evt = none) :
    receive (some m) evt now = some m := by
  simp [receive, h]

/-- Witness for C4 at a concrete input: receiving a never-sent event on a
fresh tracker leaves it unchanged. -/
theorem C4_witness :
    lookupTime (newMetrics "q").sentTimes ⟨3, .Deleted⟩ = none ∧
    receive (some (newMetrics "q")) ⟨3, .Deleted⟩ 4 = some (newMetrics "q") :=
  ⟨rfl, C4_receive_absent_noop (newMetrics "q") ⟨3, .Deleted⟩ 4 rfl⟩

/-- C5: on an absent (nil) tracker reference, both `send` and `receive`
return immediately as safe no-ops, with no observable state change. -/
theorem C5_nil_tracker_noop (evt : Event) (now : ℚ) :
    send none evt now = none ∧ receive none evt now = none :=
  ⟨rfl, rfl⟩

/-- C6: `send` increments exactly the one counter matching the event's
kind by one and leaves the other two unchanged; for a kind outside
{Add, Update, Delete} no counter is incremented, and in every case the call
completes normally (it returns a tracker state, never rejects or panics). -/
theorem C6_counter_matches_kind (m : Metrics) (evt : Event) (now : ℚ) :
    ∃ m', send (some m) evt now = some m' ∧
      m'.addCounter = m.addCounter + (if evt.type = .Added then 1 else 0) ∧
      m'.updateCounter = m.updateCounter + (if evt.type = .Modified then 1 else 0) ∧
      m'.deleteCounter = m.deleteCounter + (if evt.type = .Deleted then 1 else 0) := by
  cases hc : lookupTime m.sentTimes evt with
  | some v =>
    refine ⟨incCounter m evt.type, send_of_lookup_some m evt v now hc, ?_, ?_, ?_⟩ <;>
      (cases htyp : evt.type <;> simp [incCounter, htyp])
  | none =>
    refine ⟨_, send_of_lookup_none m evt now hc, ?_, ?_, ?_⟩ <;>
      (cases htyp : evt.type <;> simp [incCounter, htyp])

/-- C10: `send` for an event whose kind is outside {Add, Update, Delete}
still records the enqueue timestamp (when the identity is not yet tracked)
while incrementing no counter, so a later `receive` still produces exactly
one histogram observation for it. -/
theorem C10_unknown_kind_still_tracked (m : Metrics) (tag n : Nat) (t1 t2 : ℚ)
    (h : lookupTime m.sentTimes ⟨n, .other tag⟩ = none) :
    ∃ m', send (some m) ⟨n, .other tag⟩ t1 = some m' ∧
      m'.addCounter = m.addCounter ∧
      m'.updateCounter = m.updateCounter ∧
      m'.deleteCounter = m.deleteCounter ∧
      lookupTime m'.sentTimes ⟨n, .other tag⟩ = some t1 ∧
      ∃ m'', receive (some m') ⟨n, .other tag⟩ t2 = some m'' ∧
        m''.observations = (t2 - t1) :: m.observations ∧
        lookupTime m''.sentTimes ⟨n, .other tag⟩ = none := by
  refine ⟨_, send_of_lookup_none m ⟨n, .other tag⟩ t1 h, rfl, rfl, rfl,
    lookupTime_cons_self m.sentTimes ⟨n, .other tag⟩ t1, ?_⟩
  rw [receive_of_lookup_some _ ⟨n, .other tag⟩ t1 t2
    (lookupTime_cons_self m.sentTimes ⟨n, .other tag⟩ t1)]
  refine ⟨_, rfl, by simp [incCounter_observations], ?_⟩
  simp [deleteTime_cons_self, deleteTime_of_lookup_none _ _ h, h]

/-- Witness for C10 at a concrete input: an event of an unrecognized kind on
a fresh tracker, sent at time 0 and received at time 2. -/
theorem C10_witness :
    lookupTime (newMetrics "q").sentTimes ⟨1, .other 42⟩ = none ∧
    ∃ m', send (some (newMetrics "q")) ⟨1, .other 42⟩ 0 = some m' ∧
      m'.addCounter = (newMetrics "q").addCounter ∧
      m'.updateCounter = (newMetrics "q").updateCounter ∧
      m'.deleteCounter = (newMetrics "q").deleteCounter ∧
      lookupTime m'.sentTimes ⟨1, .other 42⟩ = some 0 ∧
      ∃ m'', receive (some m') ⟨1, .other 42⟩ 2 = some m'' ∧
        m''.observations = (2 - 0) :: (newMetrics "q").observations ∧
        lookupTime m''.sentTimes ⟨1, .other 42⟩ = none :=
  ⟨rfl, C10_unknown_kind_still_tracked (newMetrics "q") 42 1 0 2 rfl⟩

/-- C7: construction never fails (it is a total function), returns a tracker
with an empty correlation table and all counters at zero, and forces each of
the three per-kind registry children to an explicit zero, so each counter
reads zero (rather than being absent) before any traffic. -/
theorem C7_construction (name : String) (reg : CounterVec)
    (hA : lookupCounter reg (name, addLabel) = none)
    (hU : lookupCounter reg (name, updateLabel) = none)
    (hD : lookupCounter reg (name, deleteLabel) = none) :
    (newMetrics name).sentTimes = [] ∧
    (newMetrics name).observations = [] ∧
    (newMetrics name).addCounter = 0 ∧
    (newMetrics name).updateCounter = 0 ∧
    (newMetrics name).deleteCounter = 0 ∧
    lookupCounter (registryAfterNewMetrics name reg) (name, addLabel) = some 0 ∧
    lookupCounter (registryAfterNewMetrics name reg) (name, updateLabel) = some 0 ∧
    lookupCounter (registryAfterNewMetrics name reg) (name, deleteLabel) = some 0 := by
  have hAU : ((name, addLabel) : String × String) ≠ (name, updateLabel) := by
    simp [addLabel, updateLabel]
  have hAD : ((name, addLabel) : String × String) ≠ (name, deleteLabel) := by
    simp [addLabel, deleteLabel]
  have hUD : ((name, updateLabel) : String × String) ≠ (name, deleteLabel) := by
    simp [updateLabel, deleteLabel]
  refine ⟨rfl, rfl, rfl, rfl, rfl, ?_, ?_, ?_⟩ <;>
    simp [registryAfterNewMetrics, counterVecAdd, lookupCounter, hA, hU, hD,
      hAU, hAD, hUD, hAU.symm, hAD.symm, hUD.symm]

/-- Witness for C7 at a concrete input: an empty registry and queue name. -/
theorem C7_witness :
    (lookupCounter [] ("q", addLabel) = none ∧
      lookupCounter [] ("q", updateLabel) = none ∧
      lookupCounter [] ("q", deleteLabel) = none) ∧
    ((newMetrics "q").sentTimes = [] ∧
      (newMetrics "q").observations = [] ∧
      (newMetrics "q").addCounter = 0 ∧
      (newMetrics "q").updateCounter = 0 ∧
      (newMetrics "q").deleteCounter = 0 ∧
      lookupCounter (registryAfterNewMetrics "q" []) ("q", addLabel) = some 0 ∧
      lookupCounter (registryAfterNewMetrics "q" []) ("q", updateLabel) = some 0 ∧
      lookupCounter (registryAfterNewMetrics "q" []) ("q", deleteLabel) = some 0) :=
  ⟨⟨rfl, rfl, rfl⟩, C7_construction "q" [] rfl rfl rfl⟩

/-- C8 counterexample: the histogram family's full name is built from
subsystem "broker" and name "queue_duration_seconds", giving
"broker_queue_duration_seconds", not "broker_queue_queue_duration_seconds"
as the claim states. -/
theorem C8_counterexample :
    latencyFullName ≠ "broker_queue_queue_duration_seconds" := by
  decide

/-- C8 (amended): the counter family is named `broker_queue_adds` with
labels {name, type} where type ranges over {Add, Update, Delete}, and the
histogram family is named `broker_queue_duration_seconds` with label {name}
and exponential buckets starting at 1e-8 with factor 10 and 10 buckets. -/
theorem C8_metric_schema :
    addsFullName = "broker_queue_adds" ∧
    addsLabelNames = ["name", "type"] ∧
    addLabel = "Add" ∧ updateLabel = "Update" ∧ deleteLabel = "Delete" ∧
    latencyFullName = "broker_queue_duration_seconds" ∧
    latencyLabelNames = ["name"] ∧
    latencyBuckets = exponentialBuckets (1 / 100000000) 10 10 ∧
    latencyBuckets =
      [1 / 100000000, 1 / 10000000, 1 / 1000000, 1 / 100000, 1 / 10000,
        1 / 1000, 1 / 100, 1 / 10, 1, 10] := by
  have hstart : (10 * (1 / 1000000000) : ℚ) = 1 / 100000000 := by norm_num
  have hrange : List.range 10 = [0, 1, 2, 3, 4, 5, 6, 7, 8, 9] := by decide
  refine ⟨by decide, rfl, rfl, rfl, rfl, by decide, rfl, ?_, ?_⟩
  · rw [latencyBuckets, hstart]
  · rw [latencyBuckets, exponentialBuckets, hrange]
    norm_num

end Broker
